import Mathlib

/-!
Verification of the moderation/content-filter core of the golab-pash-24f-bot
Telegram bot (spam heuristic, banned-content matcher, string similarity,
moderation action coordinator, restriction lifecycle sweeper).

The JavaScript sources are shallowly embedded: pure functions become Lean
functions, the mutable `costs` array of `calculateSimilarity` becomes an
explicit `Nat → Nat` map threaded through folds, database handlers become
pure state transformers over an explicit list of rows, and the JS `try/catch`
blocks become an `Except`-valued core plus a catching wrapper.
-/

namespace GolabBot

/-- A JavaScript value, as far as the moderation core inspects one:
the evaluators receive `null`/`undefined`/booleans/numbers/strings through
dynamically-typed call sites (message text, cached message text). -/
inductive JSVal where
  | null
  | undef
  | bool (b : Bool)
  | num (q : ℚ)
  | str (s : String)
deriving DecidableEq

/-- JS truthiness for the values of `JSVal` (`NaN` is not representable in
`ℚ` and never arises in the embedded code paths). -/
def jsTruthy : JSVal → Bool
  | .null => false
  | .undef => false
  | .bool b => b
  | .num q => decide (q ≠ 0)
  | .str s => decide (s ≠ "")

/-- An entry of the per-sender recent-message cache (`messageCache`): the
handler stores `{messageId, text, timestamp}`; the spam evaluator only reads
`text`, which for media messages is `undefined`. -/
structure RecentMsg where
  text : JSVal
deriving DecidableEq

/-! ### Classic Levenshtein distance (DP matrix form)

`levMat s t i j` is the textbook dynamic-programming matrix for Levenshtein
edit distance (unit-cost insert/delete/substitute) between the length-`i`
prefix of `s` and the length-`j` prefix of `t`:
`D 0 j = j`, `D i 0 = i`,
`D (i+1) (j+1) = if s[i] = t[j] then D i j else 1 + min3`. -/
def levRowStep (s t : List Char) (i : ℕ) (prev : ℕ → ℕ) : ℕ → ℕ
  | 0 => i + 1
  | j + 1 =>
      if s.getD i ' ' = t.getD j ' ' then prev j
      else min (min (prev j) (levRowStep s t i prev j)) (prev (j + 1)) + 1

def levMat (s t : List Char) : ℕ → ℕ → ℕ
  | 0 => fun j => j
  | i + 1 => levRowStep s t i (levMat s t i)

/-- Levenshtein distance between two whole strings, as the corner of the
classic DP matrix. -/
def levFull (s t : List Char) : ℕ := levMat s t s.length t.length

/-! ### The JS `calculateSimilarity` (from `src/utils/contentFilter.js`)

The JS function keeps one mutable array `costs`; we model it as a total map
`ℕ → ℕ` (JS arrays grow on assignment; every index the algorithm reads has
been assigned by the `i === 0` row first).  The two `for` loops become
`List.foldl` over `List.range`. -/

/-- Point update of the modelled `costs` array. -/
def jsUpdate (f : ℕ → ℕ) (k v : ℕ) : ℕ → ℕ := fun x => if x = k then v else f x

/-- Body of the inner `for (let j = 0; j <= longer.length; j++)` loop of
`calculateSimilarity`.  State is `(costs, lastValue)`. -/
def innerBody (shorter longer : List Char) (i : ℕ) (st : (ℕ → ℕ) × ℕ) (j : ℕ) :
    (ℕ → ℕ) × ℕ :=
  if i = 0 then (jsUpdate st.1 j j, st.2)
  else if j = 0 then st
  else
    let costs := st.1
    let lastValue := st.2
    let newValue :=
      if shorter.getD (i - 1) ' ' = longer.getD (j - 1) ' ' then costs (j - 1)
      else min (min (costs (j - 1)) lastValue) (costs j) + 1
    (jsUpdate costs (j - 1) lastValue, newValue)

/-- One iteration of the outer `for (let i = 0; i <= shorter.length; i++)`
loop: run the inner loop with `lastValue` initialised to `i`, then (for
`i > 0`) perform the trailing `costs[longer.length] = lastValue`. -/
def outerBody (shorter longer : List Char) (st : ℕ → ℕ) (i : ℕ) : ℕ → ℕ :=
  let res := (List.range (longer.length + 1)).foldl (innerBody shorter longer i) (st, i)
  if i = 0 then res.1 else jsUpdate res.1 longer.length res.2

/-- The final contents of the `costs` array of `calculateSimilarity`. -/
def jsCosts (shorter longer : List Char) : ℕ → ℕ :=
  (List.range (shorter.length + 1)).foldl (outerBody shorter longer) (fun _ => 0)

/-- The source's `longer` local: `str1.length > str2.length ? str1 : str2`. -/
def longerOf (str1 str2 : String) : List Char :=
  if str2.data.length < str1.data.length then str1.data else str2.data

/-- The source's `shorter` local: `str1.length > str2.length ? str2 : str1`. -/
def shorterOf (str1 str2 : String) : List Char :=
  if str2.data.length < str1.data.length then str2.data else str1.data

/-- `calculateSimilarity` from `src/utils/contentFilter.js` (the copy the spam
evaluator calls; both string arguments, so the leading `typeof` guard is
bypassed).  Note the source divides by `longer.length` but reads
`costs[shorter.length]`, not `costs[longer.length]`. -/
def calculateSimilarity (str1 str2 : String) : ℚ :=
  let longer := longerOf str1 str2
  let shorter := shorterOf str1 str2
  if longer.length = 0 then 1
  else ((longer.length : ℚ) - (jsCosts shorter longer shorter.length : ℚ)) / (longer.length : ℚ)

/-- `calculateSimilarity` at a dynamically-typed second argument: the
`typeof` guard returns `0` for non-strings. -/
def jsCalcSim (a : String) : JSVal → ℚ
  | .str t => calculateSimilarity a t
  | _ => 0

/-! ### The spam heuristic `isSpam` (from `src/utils/contentFilter.js`)

Six boolean "spam pattern" closures are evaluated in order and counted; the
verdict compares the count with `Math.max(1, Math.floor(3 - f*2))` where
`f = sensitivity / 10`.  JS number arithmetic is modelled with `ℚ` (for the
constants appearing here the float computations are exact or far from the
relevant decision boundaries). -/

/-- The whitespace class of the JS `\s` used by `split(/\s+/)` and `[^\s]`
(core ASCII part; the embedded texts contain no exotic unicode spaces). -/
def isWS (c : Char) : Bool :=
  c = ' ' || c = '\t' || c = '\n' || c = '\r' || c = '\x0b' || c = '\x0c'

/-- Line terminators that the JS `.` (without the `s` flag) does not match. -/
def isLineTerm (c : Char) : Bool :=
  c = '\n' || c = '\r' || c = Char.ofNat 0x2028 || c = Char.ofNat 0x2029

/-- `sensitivityFactor = sensitivity / 10`. -/
def sensFactor (sensitivity : ℕ) : ℚ := (sensitivity : ℚ) / 10

/-- JS `String.prototype.toLowerCase`, as the character list it produces. -/
def jsToLower (s : String) : List Char := s.data.map Char.toLower

/-- `text.replace(/[^A-Z]/g, '').length`: number of ASCII capitals. -/
def countCaps (l : List Char) : ℕ :=
  (l.filter (fun c => decide ('A' ≤ c) && decide (c ≤ 'Z'))).length

/-- `text.replace(/[^a-zA-Z]/g, '').length`: number of ASCII letters. -/
def countAlpha (l : List Char) : ℕ :=
  (l.filter (fun c =>
    (decide ('A' ≤ c) && decide (c ≤ 'Z')) || (decide ('a' ≤ c) && decide (c ≤ 'z')))).length

/-- Number of matches of `/(.)\1{4,}/g`: maximal runs of five or more equal
characters whose character is matchable by `.`. -/
def repeatRuns (l : List Char) : ℕ :=
  ((l.splitBy (fun a b => a == b)).filter
    (fun g => decide (5 ≤ g.length) && !isLineTerm (g.headD ' '))).length

/-- Length consumed by `https?:\/\/` at the head of `l` (`0` when the scheme
does not match there).  `ci` switches the `i` flag. -/
def urlHeadLen (ci : Bool) (l : List Char) : ℕ :=
  if "https://".data.isPrefixOf (if ci then l.map Char.toLower else l) then 8
  else if "http://".data.isPrefixOf (if ci then l.map Char.toLower else l) then 7
  else 0

/-- The left-to-right pass of the regex engine for `/https?:\/\/[^\s]+/g`;
`fuel` bounds the remaining steps (each step consumes at least one input
character, so `fuel = l.length` is always sufficient). -/
def urlScanGo (ci : Bool) : ℕ → List Char → List (List Char)
  | 0, _ => []
  | _, [] => []
  | fuel + 1, c :: rest =>
      if 0 < urlHeadLen ci (c :: rest) then
        let k := urlHeadLen ci (c :: rest)
        let tail := (c :: rest).drop k
        ((c :: rest).take k ++ tail.takeWhile (fun x => !isWS x))
          :: urlScanGo ci fuel (tail.dropWhile (fun x => !isWS x))
      else urlScanGo ci fuel rest

/-- All matches of `/https?:\/\/[^\s]+/g` (global, leftmost, greedy,
non-overlapping). -/
def urlScan (ci : Bool) (l : List Char) : List (List Char) :=
  urlScanGo ci l.length l

/-- The engine of JS `String.prototype.split` on a `/p+/`-style regex:
`skipping = false` is collecting the current chunk into `acc` (reversed);
`skipping = true` is inside a separator run whose leading separator has
already emitted the previous chunk. -/
def jsSplitGo (p : Char → Bool) (skipping : Bool) (acc : List Char) :
    List Char → List (List Char)
  | [] => if skipping then [[]] else [acc.reverse]
  | c :: rest =>
      if skipping then
        if p c then jsSplitGo p true [] rest
        else jsSplitGo p false [c] rest
      else
        if p c then acc.reverse :: jsSplitGo p true [] rest
        else jsSplitGo p false (c :: acc) rest

/-- JS `String.prototype.split` on a `/p+/`-style regex: maximal runs of
separator characters split the string, with an empty leading chunk when the
string starts with a separator and an empty trailing chunk when it ends with
one (`"".split` gives `[""]`). -/
def jsSplit (p : Char → Bool) (l : List Char) : List (List Char) :=
  jsSplitGo p false [] l

/-- Spam pattern 1 — excessive capitalization:
`total > 0 && (caps / total) > (0.7 - sensitivityFactor * 0.2)`. -/
def sigCaps (text : String) (f : ℚ) : Bool :=
  let caps := countCaps text.data
  let total := countAlpha text.data
  decide (0 < total) && decide ((0.7 : ℚ) - f * 0.2 < (caps : ℚ) / (total : ℚ))

/-- Spam pattern 2 — repeated characters:
`repeats && repeats.length > (2 - Math.floor(sensitivityFactor * 2))`
(`repeats` is `null`, hence falsy, when there is no run). -/
def sigRepeat (text : String) (f : ℚ) : Bool :=
  let repeats := repeatRuns text.data
  decide (0 < repeats) && decide ((2 : ℤ) - (f * 2).floor < (repeats : ℤ))

/-- Spam pattern 3 — URL spam:
`urls && urls.length > (2 - Math.floor(sensitivityFactor * 2))`. -/
def sigUrl (text : String) (f : ℚ) : Bool :=
  let urls := (urlScan false text.data).length
  decide (0 < urls) && decide ((2 : ℤ) - (f * 2).floor < (urls : ℤ))

/-- Spam pattern 4 — repeated words: some word of
`text.toLowerCase().split(/\s+/)` occurs more than
`3 - Math.floor(sensitivityFactor * 2)` times. -/
def sigWords (text : String) (f : ℚ) : Bool :=
  let words := jsSplit isWS (jsToLower text)
  words.any (fun w => decide ((3 : ℤ) - (f * 2).floor < (words.count w : ℤ)))

/-- Spam pattern 5 — message length:
`text.length > (500 - sensitivityFactor * 200)`. -/
def sigLength (text : String) (f : ℚ) : Bool :=
  decide ((500 : ℚ) - f * 200 < (text.data.length : ℚ))

/-- Spam pattern 6 — similar to a recent message: some cached message with
truthy `text` has `calculateSimilarity(text, msg.text) > 0.8 - f * 0.2`. -/
def sigSimilar (text : String) (recent : List RecentMsg) (f : ℚ) : Bool :=
  recent.any (fun m => jsTruthy m.text && decide ((0.8 : ℚ) - f * 0.2 < jsCalcSim text m.text))

/-- The `spamPatterns` array of `isSpam`, evaluated at `text`. -/
def spamSignals (text : String) (recent : List RecentMsg) (sensitivity : ℕ) : List Bool :=
  let f := sensFactor sensitivity
  [sigCaps text f, sigRepeat text f, sigUrl text f,
   sigWords text f, sigLength text f, sigSimilar text recent f]

/-- The body of `isSpam` after the `if (!text) return false` guard:
count matching patterns with `reduce`, compare with
`Math.max(1, Math.floor(3 - sensitivityFactor * 2))`. -/
def isSpamStr (text : String) (recent : List RecentMsg) (sensitivity : ℕ) : Bool :=
  let spamScore : ℕ :=
    (spamSignals text recent sensitivity).foldl
      (fun score pat => score + if pat then 1 else 0) 0
  let threshold : ℤ := max 1 ((3 : ℚ) - sensFactor sensitivity * 2).floor
  decide (threshold ≤ (spamScore : ℤ))

/-- `isSpam` as its `try` block behaves at a dynamically-typed `text`: falsy
texts return `false`; a truthy non-string raises a `TypeError` as soon as the
first pattern closure evaluates `text.replace`. -/
def isSpamImpl (text : JSVal) (recent : List RecentMsg) (sensitivity : ℕ) :
    Except String Bool :=
  if !jsTruthy text then .ok false
  else
    match text with
    | .str s => .ok (isSpamStr s recent sensitivity)
    | _ => .error "TypeError: text.replace is not a function"

/-- `isSpam` from `src/utils/contentFilter.js`: the whole evaluation is
wrapped in `try { ... } catch { return false }`. -/
def isSpam (text : JSVal) (recent : List RecentMsg) (sensitivity : ℕ) : Bool :=
  match isSpamImpl text recent sensitivity with
  | .ok b => b
  | .error _ => false

/-- Number of the six spam signals that hold (claim-side of C1). -/
def spamSignalCount (text : String) (recent : List RecentMsg) (sensitivity : ℕ) : ℕ :=
  ((spamSignals text recent sensitivity).filter (fun b => b)).length

/-- The claim-side threshold `max(1, floor(3 - 2 f))` with `f = sensitivity/10`. -/
def spamThreshold (sensitivity : ℕ) : ℤ :=
  max 1 ((3 : ℚ) - 2 * ((sensitivity : ℚ) / 10)).floor

/-! ### The banned-content matcher `containsBannedContent`
(from `src/utils/contentFilter.js`)

Rules are sorted by severity descending, then scanned; each rule is matched
according to its `content_type`.  The `new RegExp(pattern, 'i')` engine is an
external collaborator, modelled by a compile oracle
`cmp : String → Option (String → Bool)` (`none` = the constructor throws;
the rule's inner `try/catch` then skips the rule). -/

/-- A banned-content rule row (`banned_content` table). -/
structure ContentRule where
  content : String
  content_type : String
  severity : ℤ
deriving DecidableEq

/-- JS `\W` — a non-word character (ASCII core: word chars are
`[A-Za-z0-9_]`). -/
def isNonWordChar (c : Char) : Bool :=
  !((decide ('a' ≤ c) && decide (c ≤ 'z')) || (decide ('A' ≤ c) && decide (c ≤ 'Z')) ||
    (decide ('0' ≤ c) && decide (c ≤ '9')) || c = '_')

/-- The `switch (banned.content_type)` body of `containsBannedContent`:
whether a single rule matches `text`.
  * WORD — `lowerText.split(/\W+/).includes(content.toLowerCase())`;
  * PHRASE — `lowerText.includes(content.toLowerCase())`;
  * REGEX — `new RegExp(content, 'i').test(text)`, compile failure caught and
    treated as no match;
  * LINK — some URL extracted by `/(https?:\/\/[^\s]+)/gi` contains
    `content.toLowerCase()`;
  * anything else — no `case` applies, rule skipped. -/
def ruleMatches (cmp : String → Option (String → Bool)) (text : String)
    (r : ContentRule) : Bool :=
  match r.content_type with
  | "WORD" => (jsSplit isNonWordChar (jsToLower text)).contains (jsToLower r.content)
  | "PHRASE" => decide (jsToLower r.content <:+: jsToLower text)
  | "REGEX" =>
      match cmp r.content with
      | none => false
      | some test => test text
  | "LINK" =>
      (urlScan true text.data).any
        (fun u => decide (jsToLower r.content <:+: u.map Char.toLower))
  | _ => false

/-- The `for (const banned of sortedContent)` loop: return the first rule
whose `switch` case matches. -/
def scanRules (cmp : String → Option (String → Bool)) (text : String) :
    List ContentRule → Option ContentRule
  | [] => none
  | r :: rest => if ruleMatches cmp text r then some r else scanRules cmp text rest

/-- `[...bannedContent].sort((a, b) => b.severity - a.severity)`: a stable
severity-descending sort (ES2019 `Array.prototype.sort` is stable; modelled
by a stable insertion sort). -/
def sortRules (rules : List ContentRule) : List ContentRule :=
  List.insertionSort (fun a b => b.severity ≤ a.severity) rules

/-- The string-typed body of `containsBannedContent` (guard included). -/
def containsBannedContentStr (text : String) (rules : List ContentRule)
    (cmp : String → Option (String → Bool)) : Option ContentRule :=
  if text = "" || rules.isEmpty then none
  else scanRules cmp text (sortRules rules)

/-- `containsBannedContent` as its `try` block behaves at a dynamically-typed
`text`: the falsy/empty guard returns `null` first; a truthy non-string then
raises a `TypeError` at `text.toLowerCase()`. -/
def containsBannedContentImpl (text : JSVal) (rules : List ContentRule)
    (cmp : String → Option (String → Bool)) : Except String (Option ContentRule) :=
  if !jsTruthy text || rules.isEmpty then .ok none
  else
    match text with
    | .str s => .ok (containsBannedContentStr s rules cmp)
    | _ => .error "TypeError: text.toLowerCase is not a function"

/-- `containsBannedContent` with its outer `try/catch { return null }`. -/
def containsBannedContent (text : JSVal) (rules : List ContentRule)
    (cmp : String → Option (String → Bool)) : Option ContentRule :=
  match containsBannedContentImpl text rules cmp with
  | .ok v => v
  | .error _ => none

/-! ### The moderation action coordinator
(`handleSpam` / `handleBannedContent` from the message-handler iteration of
`src/middlewares/reactionHandler.js`)

Both handlers run
`deleteMessage; logInfraction; getUserInfractions; (ban | lighter action)`
inside a single `try { ... } catch (e) { logger.error(...) }`.  The external
`bot.deleteMessage` call may fail; `deleteOk` models its outcome.  Database
writes/reads are modelled over an explicit list of infraction rows. -/

/-- A row of the `infractions` table as the coordinator reads it back via
`getUserInfractions` (only the fields it inspects). -/
structure InfractionRow where
  userId : ℤ
  itype : String
  action : String
deriving DecidableEq

/-- The `group_settings` fields the handlers read.  A missing row
(`settings == null`) or a NULL / `0` column falls back through JS `||` to
`config.maxWarnings = 3`. -/
structure GroupSettings where
  max_warnings : Option ℤ
deriving DecidableEq

/-- `settings?.max_warnings || config.maxWarnings`. -/
def maxWarningsOf : Option GroupSettings → ℤ
  | none => 3
  | some s =>
      match s.max_warnings with
      | none => 3
      | some v => if v = 0 then 3 else v

/-- External side effects the handlers request. -/
inductive ModEffect where
  | deleteMsg
  | banChatMember (userId untilSecs : ℤ)
  | restrictChatMember (userId untilSecs : ℤ)
  | sendMessage
  | logError
deriving DecidableEq

/-- `handleBannedContent(bot, msg, violatedContent, settings)`:
delete the message, insert a `BANNED_CONTENT`/`WARN` infraction, count *all*
of the user's infractions (`getUserInfractions` has no type filter), then ban
for a hard-coded 24 hours when `warningCount >= maxWarnings`, otherwise only
warn.  When `bot.deleteMessage` throws (`deleteOk = false`) the handler's
single `catch` logs the error and nothing else runs. -/
def handleBannedContent (deleteOk : Bool) (db : List InfractionRow) (userId : ℤ)
    (settings : Option GroupSettings) (nowSecs : ℤ) :
    List InfractionRow × List ModEffect :=
  if !deleteOk then (db, [.logError])
  else if maxWarningsOf settings
      ≤ ((((db ++ [(⟨userId, "BANNED_CONTENT", "WARN"⟩ : InfractionRow)]).filter
            (fun r => r.userId = userId)).length : ℕ) : ℤ) then
    (db ++ [(⟨userId, "BANNED_CONTENT", "WARN"⟩ : InfractionRow)],
     [.deleteMsg, .banChatMember userId (nowSecs + 60 * 60 * 24), .sendMessage])
  else
    (db ++ [(⟨userId, "BANNED_CONTENT", "WARN"⟩ : InfractionRow)],
     [.deleteMsg, .sendMessage])

/-- `handleSpam(bot, msg, settings)`: delete, insert a `SPAM`/`MUTE`
infraction, count all the user's infractions, then ban for a hard-coded hour
when over threshold, otherwise mute for 10 minutes and warn. -/
def handleSpam (deleteOk : Bool) (db : List InfractionRow) (userId : ℤ)
    (settings : Option GroupSettings) (nowSecs : ℤ) :
    List InfractionRow × List ModEffect :=
  if !deleteOk then (db, [.logError])
  else if maxWarningsOf settings
      ≤ ((((db ++ [(⟨userId, "SPAM", "MUTE"⟩ : InfractionRow)]).filter
            (fun r => r.userId = userId)).length : ℕ) : ℤ) then
    (db ++ [(⟨userId, "SPAM", "MUTE"⟩ : InfractionRow)],
     [.deleteMsg, .banChatMember userId (nowSecs + 60 * 60), .sendMessage])
  else
    (db ++ [(⟨userId, "SPAM", "MUTE"⟩ : InfractionRow)],
     [.deleteMsg, .restrictChatMember userId (nowSecs + 60 * 10), .sendMessage])

/-- The claim-side count for C2: infractions of the user *of one class*. -/
def relevantClassCount (db : List InfractionRow) (userId : ℤ) (itype : String) : ℕ :=
  (db.filter (fun r => r.userId = userId && r.itype = itype)).length

/-! ### The restriction lifecycle sweeper
(`checkTemporaryBans` from `src/utils/scheduler.js` over the
`getExpiredRestrictions` / `removeRestriction` iteration of
`src/unnamed/part_002`, the one with the `processed` column that
`src/database/init.js` creates)

Timestamps and the `INTERVAL` columns are modelled in minutes. -/

/-- A row of the `infractions` table as the sweep queries see it. -/
structure SweepInfraction where
  id : ℤ
  userId : ℤ
  itype : String
  createdAt : ℤ
  durationMin : ℤ
  processed : Bool
deriving DecidableEq

/-- Database state the sweeper touches: infraction rows plus the
`message_logs` pairs `(user_id, chat_id)`.  (The `users` join of the queries
only contributes display columns and the `is_banned` flag, which no sweep
selection reads; it is dropped.) -/
structure SweepDB where
  infractions : List SweepInfraction
  messageLogs : List (ℤ × ℤ)
deriving DecidableEq

/-- The `WHERE` clause of `getExpiredRestrictions`: type BAN or MUTE,
`created_at + duration <= NOW()`, `processed = false`, and `NOT EXISTS` a
strictly newer infraction of the same user and type. -/
def expiredWhere (db : SweepDB) (now : ℤ) (i : SweepInfraction) : Bool :=
  (i.itype = "BAN" || i.itype = "MUTE") &&
  decide (i.createdAt + i.durationMin ≤ now) &&
  !i.processed &&
  !(db.infractions.any (fun j =>
      j.userId = i.userId && j.itype = i.itype && decide (i.createdAt < j.createdAt)))

/-- `getExpiredRestrictions()`: the selected infractions, joined with the
user's `message_logs` chats.  (`SELECT DISTINCT`/`ORDER BY` only affect
multiplicity and order of the rows, not which infractions appear.) -/
def getExpiredRestrictions (db : SweepDB) (now : ℤ) : List (SweepInfraction × ℤ) :=
  (db.infractions.filter (expiredWhere db now)).flatMap
    (fun i => (db.messageLogs.filter (fun l => l.1 = i.userId)).map (fun l => (i, l.2)))

/-- Claim-side (C3): a strictly newer infraction of the same kind that is
*still active* at `now`. -/
def newerStillActive (db : SweepDB) (now : ℤ) (i : SweepInfraction) : Bool :=
  db.infractions.any (fun j =>
    j.userId = i.userId && j.itype = i.itype && decide (i.createdAt < j.createdAt) &&
    decide (now < j.createdAt + j.durationMin))

/-- Claim-side (C3), written from the spec's words: candidate iff BAN/MUTE,
expired, not yet processed, and no strictly newer *still-active* infraction
of the same kind supersedes it. -/
def specSweepCandidate (db : SweepDB) (now : ℤ) (i : SweepInfraction) : Bool :=
  (i.itype = "BAN" || i.itype = "MUTE") &&
  decide (i.createdAt + i.durationMin ≤ now) &&
  !i.processed &&
  !newerStillActive db now i

/-- `getUserRestrictedChats(userId, type)`: the user's `message_logs` chats,
provided the user has an infraction of that type from the last 30 days
(43200 minutes). -/
def getUserRestrictedChats (db : SweepDB) (userId : ℤ) (itype : String) (now : ℤ) :
    List ℤ :=
  if db.infractions.any (fun i =>
      i.userId = userId && i.itype = itype && decide (now - 43200 ≤ i.createdAt)) then
    (db.messageLogs.filter (fun l => l.1 = userId)).map (fun l => l.2)
  else []

/-- `removeRestriction(userId, type, infractionId)` of the `processed`-column
iteration: `UPDATE infractions SET processed = true WHERE id = $infractionId`
(the BAN branch additionally clears `users.is_banned`, which no sweep
selection reads).  `checkTemporaryBans` calls it with only two arguments, so
`infractionId` is `undefined`; node-postgres binds `undefined` as SQL `NULL`
and `WHERE id = NULL` matches no row — modelled by `infractionId : Option ℤ`
with `none` matching nothing. -/
def removeRestriction (db : SweepDB) (userId : ℤ) (itype : String)
    (infractionId : Option ℤ) : SweepDB :=
  { db with
    infractions := db.infractions.map (fun i =>
      if some i.id = infractionId then { i with processed := true } else i) }

/-- Platform calls the sweeper issues. -/
inductive PlatformCall where
  | unbanChatMember (chatId userId : ℤ)
  | restrictLift (chatId userId : ℤ)
  | sendMessage (chatId : ℤ)
deriving DecidableEq

/-- `checkTemporaryBans(bot)` from `src/utils/scheduler.js`: fetch expired
restrictions once, then for each row look up the user's restricted chats,
issue the platform lift (unban for BAN, permission restore for MUTE) plus a
notification per chat, and finally call
`removeRestriction(restriction.user_id, restriction.type)` — without an
infraction id. -/
def checkTemporaryBans (db : SweepDB) (now : ℤ) : SweepDB × List PlatformCall :=
  let cands := getExpiredRestrictions db now
  cands.foldl
    (fun st row =>
      let chats := getUserRestrictedChats st.1 row.1.userId row.1.itype now
      let calls := chats.flatMap (fun chat =>
        (if row.1.itype = "BAN" then [PlatformCall.unbanChatMember chat row.1.userId]
         else [PlatformCall.restrictLift chat row.1.userId])
          ++ [PlatformCall.sendMessage chat])
      (removeRestriction st.1 row.1.userId row.1.itype none, st.2 ++ calls))
    (db, [])

/-! ## Theorems -/

theorem levMat_zero (s t : List Char) (j : ℕ) : levMat s t 0 j = j := rfl

theorem levMat_succ_zero (s t : List Char) (i : ℕ) : levMat s t (i + 1) 0 = i + 1 := rfl

/-- The textbook recurrence for the DP matrix. -/
theorem levMat_succ_succ (s t : List Char) (i j : ℕ) :
    levMat s t (i + 1) (j + 1)
      = if s.getD i ' ' = t.getD j ' ' then levMat s t i j
        else min (min (levMat s t i j) (levMat s t (i + 1) j)) (levMat s t i (j + 1)) + 1 :=
  rfl

theorem levMat_symm (s t : List Char) : ∀ i j, levMat s t i j = levMat t s j i := by
  intro i
  induction i with
  | zero => intro j; cases j <;> simp [levMat_zero, levMat_succ_zero]
  | succ i ih =>
    intro j
    induction j with
    | zero => simp [levMat_zero, levMat_succ_zero]
    | succ j ihj =>
      rw [levMat_succ_succ, levMat_succ_succ]
      by_cases h : s.getD i ' ' = t.getD j ' '
      · rw [if_pos h, if_pos h.symm, ih]
      · rw [if_neg h, if_neg (fun h2 => h h2.symm), ih j, ihj, ih (j + 1)]
        omega

theorem levMat_self_diag (s : List Char) : ∀ i, levMat s s i i = 0 := by
  intro i
  induction i with
  | zero => simp [levMat_zero]
  | succ i ih => rw [levMat_succ_succ, if_pos rfl, ih]

theorem levMat_le_max (s t : List Char) : ∀ i j, levMat s t i j ≤ max i j := by
  intro i
  induction i with
  | zero => intro j; cases j <;> simp [levMat_zero]
  | succ i ih =>
    intro j
    induction j with
    | zero => simp [levMat_succ_zero]
    | succ j ihj =>
      rw [levMat_succ_succ]
      by_cases h : s.getD i ' ' = t.getD j ' '
      · rw [if_pos h]
        have := ih j
        omega
      · rw [if_neg h]
        have h1 := ih j
        have h2 := ihj
        have h3 := ih (j + 1)
        omega

/-- `levMat` only looks at the length-`j` prefix of its second string. -/
theorem levMat_take_right (s t : List Char) (N : ℕ) :
    ∀ i j, j ≤ N → levMat s t i j = levMat s (t.take N) i j := by
  intro i
  induction i with
  | zero => intro j _; cases j <;> simp [levMat_zero]
  | succ i ih =>
    intro j hj
    induction j with
    | zero => simp [levMat_succ_zero]
    | succ j ihj =>
      have hgd : t.getD j ' ' = (t.take N).getD j ' ' := by
        simp [List.getD, List.get?_eq_getElem?,
          List.getElem?_take_of_lt (show j < N by omega)]
      rw [levMat_succ_succ, levMat_succ_succ, ← hgd, ih j (by omega), ih (j + 1) hj,
        ihj (by omega)]

theorem innerLoop_zero (s t : List Char) :
    ∀ (l : List ℕ) (c : ℕ → ℕ) (v : ℕ),
      (l.foldl (innerBody s t 0) (c, v)).1 = (fun x => if x ∈ l then x else c x) ∧
      (l.foldl (innerBody s t 0) (c, v)).2 = v := by
  intro l
  induction l with
  | nil => intro c v; exact ⟨by funext x; simp, rfl⟩
  | cons a l ih =>
    intro c v
    rw [List.foldl_cons]
    have hb : innerBody s t 0 (c, v) a = (jsUpdate c a a, v) := rfl
    rw [hb]
    obtain ⟨h1, h2⟩ := ih (jsUpdate c a a) v
    refine ⟨?_, h2⟩
    rw [h1]
    funext x
    by_cases hx : x ∈ l
    · simp [hx]
    · by_cases hxa : x = a <;> simp [hx, hxa, jsUpdate]

theorem innerLoop_inv (s t : List Char) (i : ℕ) :
    ∀ (len p : ℕ) (c : ℕ → ℕ) (lv : ℕ),
      p + len = t.length →
      (∀ k, k < p → c k = levMat s t (i + 1) k) →
      (∀ k, p ≤ k → k ≤ t.length → c k = levMat s t i k) →
      lv = levMat s t (i + 1) p →
      (∀ k, k < t.length →
          ((List.range' (p + 1) len).foldl (innerBody s t (i + 1)) (c, lv)).1 k
            = levMat s t (i + 1) k) ∧
      ((List.range' (p + 1) len).foldl (innerBody s t (i + 1)) (c, lv)).2
          = levMat s t (i + 1) t.length := by
  intro len
  induction len with
  | zero =>
    intro p c lv hp hc1 hc2 hlv
    simp only [List.range'_zero, List.foldl_nil]
    have hpt : p = t.length := by omega
    exact ⟨fun k hk => hc1 k (by omega), by rw [hlv, hpt]⟩
  | succ len ih =>
    intro p c lv hp hc1 hc2 hlv
    have hplt : p < t.length := by omega
    rw [List.range'_succ, List.foldl_cons]
    have hstep : innerBody s t (i + 1) (c, lv) (p + 1)
        = (jsUpdate c p lv, levMat s t (i + 1) (p + 1)) := by
      show (if i + 1 = 0 then _ else if p + 1 = 0 then _ else _) = _
      rw [if_neg (Nat.succ_ne_zero i), if_neg (Nat.succ_ne_zero p)]
      simp only [Nat.add_sub_cancel]
      have hcp : c p = levMat s t i p := hc2 p le_rfl (by omega)
      have hcp1 : c (p + 1) = levMat s t i (p + 1) := hc2 (p + 1) (by omega) (by omega)
      rw [levMat_succ_succ]
      by_cases hch : s.getD i ' ' = t.getD p ' '
      · rw [if_pos hch, if_pos hch, hcp]
      · rw [if_neg hch, if_neg hch, hcp, hcp1, hlv]
    rw [hstep]
    exact ih (p + 1) (jsUpdate c p lv) (levMat s t (i + 1) (p + 1)) (by omega)
      (fun k hk => by
        by_cases hkp : k = p
        · subst hkp; simp [jsUpdate, hlv]
        · have : k < p := by omega
          simp only [jsUpdate, if_neg (show ¬ k = p from hkp)]
          exact hc1 k this)
      (fun k hk1 hk2 => by
        simp only [jsUpdate, if_neg (show ¬ k = p by omega)]
        exact hc2 k (by omega) hk2)
      rfl

theorem outer_row_succ (s t : List Char) (i : ℕ) (c : ℕ → ℕ)
    (hc : ∀ k, k ≤ t.length → c k = levMat s t i k) :
    ∀ k, k ≤ t.length → outerBody s t c (i + 1) k = levMat s t (i + 1) k := by
  intro k hk
  unfold outerBody
  have hr : List.range (t.length + 1) = 0 :: List.range' 1 t.length := by
    rw [List.range_eq_range', List.range'_succ]
  rw [hr, List.foldl_cons]
  have h0 : innerBody s t (i + 1) (c, i + 1) 0 = (c, i + 1) := by
    show (if i + 1 = 0 then _ else if (0 : ℕ) = 0 then _ else _) = _
    rw [if_neg (Nat.succ_ne_zero i), if_pos rfl]
  rw [h0]
  obtain ⟨h1, h2⟩ := innerLoop_inv s t i t.length 0 c (i + 1) (by omega)
    (fun k hk => absurd hk (Nat.not_lt_zero k))
    (fun k _ hk2 => hc k hk2) (by rw [levMat_succ_zero])
  rw [if_neg (Nat.succ_ne_zero i)]
  by_cases hkn : k = t.length
  · subst hkn; simp [jsUpdate, h2]
  · simp only [jsUpdate, if_neg hkn]
    exact h1 k (by omega)

theorem outerLoop_inv (s t : List Char) :
    ∀ (len i : ℕ) (c : ℕ → ℕ),
      (∀ k, k ≤ t.length → c k = levMat s t i k) →
      ∀ k, k ≤ t.length →
        ((List.range' (i + 1) len).foldl (outerBody s t) c) k = levMat s t (i + len) k := by
  intro len
  induction len with
  | zero =>
    intro i c hc k hk
    simpa using hc k hk
  | succ len ih =>
    intro i c hc k hk
    rw [List.range'_succ, List.foldl_cons]
    have := ih (i + 1) (outerBody s t c (i + 1)) (outer_row_succ s t i c hc) k hk
    rw [this]
    congr 1
    omega

/-- After the full nested loop, `costs[k] = levMat shorter longer m k`
for every `k ≤ longer.length`. -/
theorem jsCosts_eq (s t : List Char) :
    ∀ k, k ≤ t.length → jsCosts s t k = levMat s t s.length k := by
  intro k hk
  unfold jsCosts
  have hr : List.range (s.length + 1) = 0 :: List.range' 1 s.length := by
    rw [List.range_eq_range', List.range'_succ]
  rw [hr, List.foldl_cons]
  have hrow0 : ∀ k2, k2 ≤ t.length →
      outerBody s t (fun _ => 0) 0 k2 = levMat s t 0 k2 := by
    intro k2 hk2
    unfold outerBody
    obtain ⟨h1, _⟩ := innerLoop_zero s t (List.range (t.length + 1)) (fun _ => 0) 0
    rw [if_pos rfl, h1]
    simp only [List.mem_range]
    rw [if_pos (show k2 < t.length + 1 by omega)]
    cases k2 <;> simp [levMat_zero]
  have := outerLoop_inv s t s.length 0 (outerBody s t (fun _ => 0) 0) hrow0 k hk
  simpa using this

theorem shorterOf_le (str1 str2 : String) :
    (shorterOf str1 str2).length ≤ (longerOf str1 str2).length := by
  unfold shorterOf longerOf
  by_cases hc : str2.data.length < str1.data.length
  · simp only [if_pos hc]; omega
  · simp only [if_neg hc]; omega

theorem longerOf_length (str1 str2 : String) :
    (longerOf str1 str2).length = max str1.data.length str2.data.length := by
  unfold longerOf
  by_cases hc : str2.data.length < str1.data.length
  · simp only [if_pos hc]; omega
  · simp only [if_neg hc]; omega

theorem calculateSimilarity_closed (str1 str2 : String) :
    calculateSimilarity str1 str2 =
      (if (longerOf str1 str2).length = 0 then 1
       else 1 - (levFull (shorterOf str1 str2)
                    ((longerOf str1 str2).take (shorterOf str1 str2).length) : ℚ)
                  / ((longerOf str1 str2).length : ℚ)) := by
  unfold calculateSimilarity
  set longer := longerOf str1 str2
  set shorter := shorterOf str1 str2
  by_cases h0 : longer.length = 0
  · simp [h0]
  · have hms : shorter.length ≤ longer.length := shorterOf_le str1 str2
    have hcost : jsCosts shorter longer shorter.length
        = levFull shorter (longer.take shorter.length) := by
      rw [jsCosts_eq shorter longer shorter.length hms,
        levMat_take_right shorter longer shorter.length shorter.length shorter.length le_rfl]
      unfold levFull
      congr 1
      rw [List.length_take]
      omega
    simp only [if_neg h0, hcost]
    have hn : (longer.length : ℚ) ≠ 0 := by
      exact_mod_cast h0
    field_simp

theorem calculateSimilarity_nonneg_le_one (str1 str2 : String) :
    0 ≤ calculateSimilarity str1 str2 ∧ calculateSimilarity str1 str2 ≤ 1 := by
  rw [calculateSimilarity_closed]
  by_cases h0 : (longerOf str1 str2).length = 0
  · simp [h0]
  · rw [if_neg h0]
    set longer := longerOf str1 str2
    set shorter := shorterOf str1 str2
    have hms : shorter.length ≤ longer.length := shorterOf_le str1 str2
    have hd : levFull shorter (longer.take shorter.length) ≤ longer.length := by
      unfold levFull
      calc levMat shorter (longer.take shorter.length) shorter.length
              (longer.take shorter.length).length
          ≤ max shorter.length (longer.take shorter.length).length :=
            levMat_le_max _ _ _ _
        _ ≤ longer.length := by
            rw [List.length_take]
            omega
    have hnpos : (0 : ℚ) < (longer.length : ℚ) := by
      have : 0 < longer.length := Nat.pos_of_ne_zero h0
      exact_mod_cast this
    have hdq : (levFull shorter (longer.take shorter.length) : ℚ) ≤ (longer.length : ℚ) := by
      exact_mod_cast hd
    have hdq0 : (0 : ℚ) ≤ (levFull shorter (longer.take shorter.length) : ℚ) := by
      positivity
    constructor
    · have : (levFull shorter (longer.take shorter.length) : ℚ) / (longer.length : ℚ) ≤ 1 :=
        (div_le_one hnpos).mpr hdq
      linarith
    · have : 0 ≤ (levFull shorter (longer.take shorter.length) : ℚ) / (longer.length : ℚ) :=
        div_nonneg hdq0 (le_of_lt hnpos)
      linarith

theorem calculateSimilarity_symm (str1 str2 : String) :
    calculateSimilarity str1 str2 = calculateSimilarity str2 str1 := by
  unfold calculateSimilarity longerOf shorterOf
  rcases Nat.lt_trichotomy str2.data.length str1.data.length with h | h | h
  · simp only [if_pos h, if_neg (show ¬ str1.data.length < str2.data.length by omega)]
  · simp only [if_neg (show ¬ str2.data.length < str1.data.length by omega),
      if_neg (show ¬ str1.data.length < str2.data.length by omega)]
    by_cases h0 : str1.data.length = 0
    · simp [show str2.data.length = 0 by omega, h0]
    · rw [if_neg (show ¬ str2.data.length = 0 by omega), if_neg h0]
      have e1 : jsCosts str1.data str2.data str1.data.length
          = levMat str2.data str1.data str1.data.length str1.data.length := by
        rw [jsCosts_eq str1.data str2.data str1.data.length (by omega), levMat_symm]
      have e2 : jsCosts str2.data str1.data str2.data.length
          = levMat str2.data str1.data str1.data.length str1.data.length := by
        rw [jsCosts_eq str2.data str1.data str2.data.length (by omega), h]
      rw [e1, e2, h]
  · simp only [if_neg (show ¬ str2.data.length < str1.data.length by omega), if_pos h]

theorem calculateSimilarity_self (s : String) : calculateSimilarity s s = 1 := by
  rw [calculateSimilarity_closed]
  by_cases h0 : (longerOf s s).length = 0
  · rw [if_pos h0]
  · rw [if_neg h0]
    have hlo : longerOf s s = s.data := by unfold longerOf; simp
    have hsh : shorterOf s s = s.data := by unfold shorterOf; simp
    rw [hlo, hsh, List.take_length]
    unfold levFull
    rw [levMat_self_diag]
    simp

theorem foldl_count_true (l : List Bool) :
    ∀ n : ℕ, l.foldl (fun score pat => score + if pat then 1 else 0) n
      = n + (l.filter (fun b => b)).length := by
  induction l with
  | nil => intro n; simp
  | cons b l ih =>
    intro n
    cases b <;> (simp [List.foldl_cons, ih]; try omega)

/-- `isSpamStr` in terms of the claim-side count and threshold. -/
theorem isSpamStr_iff (text : String) (recent : List RecentMsg) (sensitivity : ℕ) :
    isSpamStr text recent sensitivity = true
      ↔ spamThreshold sensitivity ≤ (spamSignalCount text recent sensitivity : ℤ) := by
  unfold isSpamStr spamThreshold spamSignalCount sensFactor
  simp only [decide_eq_true_eq]
  rw [foldl_count_true,
    show ((3 : ℚ) - (sensitivity : ℚ) / 10 * 2) = (3 : ℚ) - 2 * ((sensitivity : ℚ) / 10) from
      by ring]
  simp

theorem spamThreshold_five : spamThreshold 5 = 2 := by
  unfold spamThreshold
  rw [show (3 : ℚ) - 2 * (((5 : ℕ) : ℚ) / 10) = 2 by norm_num]
  decide

theorem spamThreshold_ten : spamThreshold 10 = 1 := by
  unfold spamThreshold
  rw [show (3 : ℚ) - 2 * (((10 : ℕ) : ℚ) / 10) = 1 by norm_num]
  decide

/-- `calculateSimilarity` of the empty string with any nonempty string is `1`
(the final read `costs[0]` is still `0` from the initialisation row). -/
theorem calculateSimilarity_empty_x : calculateSimilarity "" "x" = 1 := by
  rw [calculateSimilarity_closed,
    show longerOf "" "x" = "x".data from rfl,
    show shorterOf "" "x" = "".data from rfl]
  rw [if_neg (by decide : ¬ "x".data.length = 0),
    show levFull "".data ("x".data.take "".data.length) = 0 from rfl,
    show ("x".data.length) = 1 from rfl]
  norm_num

/-- The six signals at the empty text with cached message `"x"` and
sensitivity 10: only the near-duplicate signal holds. -/
theorem spamSignals_empty_x :
    spamSignals "" [⟨.str "x"⟩] 10 = [false, false, false, false, false, true] := by
  have hf : sensFactor 10 = 1 := by unfold sensFactor; norm_num
  unfold spamSignals
  simp only [hf]
  have h4 : sigWords "" 1 = false := by
    unfold sigWords
    have hfl : ((1 : ℚ) * 2).floor = 2 := by
      rw [show (1 : ℚ) * 2 = 2 by norm_num]
      decide
    simp only [hfl]
    decide
  have h5 : sigLength "" 1 = false := by
    unfold sigLength
    rw [show (500 : ℚ) - 1 * 200 = 300 by norm_num]
    decide
  have h6 : sigSimilar "" [⟨.str "x"⟩] 1 = true := by
    unfold sigSimilar
    simp only [List.any_cons, List.any_nil, Bool.or_false]
    rw [show jsTruthy (.str "x") = true from rfl, Bool.true_and, decide_eq_true_eq,
      show jsCalcSim "" (.str "x") = calculateSimilarity "" "x" from rfl,
      calculateSimilarity_empty_x]
    norm_num
  rw [show sigCaps "" 1 = false from rfl, show sigRepeat "" 1 = false from rfl,
    show sigUrl "" 1 = false from rfl, h4, h5, h6]

/-- **C10**: `isSpam` returns `false` whenever the message text is `null`,
`undefined` or the empty string — the `if (!text) return false` guard fires
before any signal is evaluated, for every cache contents and sensitivity. -/
theorem C10_falsy_text_not_spam (recent : List RecentMsg) (sensitivity : ℕ) :
    isSpam .null recent sensitivity = false ∧
    isSpam .undef recent sensitivity = false ∧
    isSpam (.str "") recent sensitivity = false :=
  ⟨rfl, rfl, rfl⟩

/-- **C7**: evaluation is fail-open.  Whenever the evaluation core raises,
`isSpam` returns `false` and `containsBannedContent` returns `null`; when it
does not raise, the wrappers return its value — so no error ever propagates
out of either evaluator. -/
theorem C7_fail_open :
    (∀ (text : JSVal) (recent : List RecentMsg) (sensitivity : ℕ) (e : String),
        isSpamImpl text recent sensitivity = .error e →
          isSpam text recent sensitivity = false) ∧
    (∀ (text : JSVal) (recent : List RecentMsg) (sensitivity : ℕ) (b : Bool),
        isSpamImpl text recent sensitivity = .ok b →
          isSpam text recent sensitivity = b) ∧
    (∀ (text : JSVal) (rules : List ContentRule) (cmp : String → Option (String → Bool))
        (e : String),
        containsBannedContentImpl text rules cmp = .error e →
          containsBannedContent text rules cmp = none) ∧
    (∀ (text : JSVal) (rules : List ContentRule) (cmp : String → Option (String → Bool))
        (v : Option ContentRule),
        containsBannedContentImpl text rules cmp = .ok v →
          containsBannedContent text rules cmp = v) := by
  refine ⟨?_, ?_, ?_, ?_⟩
  · intro text recent sensitivity e h
    unfold isSpam
    rw [h]
  · intro text recent sensitivity b h
    unfold isSpam
    rw [h]
  · intro text rules cmp e h
    unfold containsBannedContent
    rw [h]
  · intro text rules cmp v h
    unfold containsBannedContent
    rw [h]

/-- Witness for C7: a numeric (truthy, non-string) text raises a `TypeError`
inside both evaluators, and both fail open. -/
theorem C7_fail_open_witness :
    isSpam (.num 5) [] 5 = false ∧
    containsBannedContent (.num 5) [⟨"a", "PHRASE", 1⟩] (fun _ => none) = none :=
  ⟨C7_fail_open.1 (.num 5) [] 5 "TypeError: text.replace is not a function" rfl,
   C7_fail_open.2.2.1 (.num 5) [⟨"a", "PHRASE", 1⟩] (fun _ => none)
     "TypeError: text.toLowerCase is not a function" rfl⟩

/-- **C1** counterexample: at the empty text the claimed signal-count
equivalence fails.  With one cached message `"x"` and sensitivity 10, the
near-duplicate signal holds (`calculateSimilarity("", "x") = 1 > 0.6`), so
the signal count reaches the threshold `max(1, floor(3 - 2f)) = 1`, yet
`isSpam` returns `false` because of the `if (!text) return false` guard. -/
theorem C1_counterexample :
    isSpam (.str "") [⟨.str "x"⟩] 10 = false ∧
    spamThreshold 10 ≤ (spamSignalCount "" [⟨.str "x"⟩] 10 : ℤ) := by
  refine ⟨rfl, ?_⟩
  rw [spamThreshold_ten]
  unfold spamSignalCount
  rw [spamSignals_empty_x]
  decide

/-- **C1** (amended): for every *nonempty* message text, every recent-message
list and every sensitivity in 1..10, `isSpam` returns `true` iff the number
of the six signals that hold is at least `max(1, floor(3 - 2f))` with
`f = sensitivity/10`; in particular at sensitivity 5 the threshold is 2. -/
theorem C1_spam_verdict_amended (text : String) (recent : List RecentMsg)
    (sensitivity : ℕ) (htext : text ≠ "") (hlo : 1 ≤ sensitivity) (hhi : sensitivity ≤ 10) :
    (isSpam (.str text) recent sensitivity = true
      ↔ spamThreshold sensitivity ≤ (spamSignalCount text recent sensitivity : ℤ)) ∧
    spamThreshold 5 = 2 := by
  refine ⟨?_, spamThreshold_five⟩
  have ht : jsTruthy (.str text) = true := by simp [jsTruthy, htext]
  unfold isSpam isSpamImpl
  rw [ht]
  exact isSpamStr_iff text recent sensitivity

/-- Witness for the amended C1 at `text = "hello"`, no recent messages,
sensitivity 5. -/
theorem C1_spam_verdict_amended_witness :
    (isSpam (.str "hello") [] 5 = true
      ↔ spamThreshold 5 ≤ (spamSignalCount "hello" [] 5 : ℤ)) ∧
    spamThreshold 5 = 2 :=
  C1_spam_verdict_amended "hello" [] 5 (by decide) (by decide) (by decide)

/-- **C6** counterexample: the claimed formula
`1 - editDistance(a, b) / max(len a, len b)` fails at `a = "a"`, `b = "ab"`:
the code returns `1` (it reads `costs[shorter.length]`, the distance between
`"a"` and the length-1 prefix of `"ab"`), while the formula gives `1/2`. -/
theorem C6_counterexample :
    calculateSimilarity "a" "ab"
      ≠ 1 - (levFull "a".data "ab".data : ℚ)
              / ((max "a".data.length "ab".data.length : ℕ) : ℚ) := by
  rw [calculateSimilarity_closed,
    show longerOf "a" "ab" = "ab".data from rfl,
    show shorterOf "a" "ab" = "a".data from rfl]
  rw [if_neg (by decide : ¬ "ab".data.length = 0),
    show levFull "a".data ("ab".data.take "a".data.length) = 0 from rfl,
    show levFull "a".data "ab".data = 1 from rfl,
    show (max "a".data.length "ab".data.length) = 2 from rfl,
    show ("ab".data.length) = 2 from rfl]
  norm_num

/-- **C6** (amended): `calculateSimilarity` lies in `[0, 1]`, is symmetric,
equals `1` on identical strings (including both empty), and equals
`1 - d / max(len a, len b)` where `d` is the classic Levenshtein distance
between the *shorter* string and the *prefix of the longer string of the
shorter string's length* (not between the two full strings). -/
theorem C6_similarity_amended (a b : String) :
    (0 ≤ calculateSimilarity a b ∧ calculateSimilarity a b ≤ 1) ∧
    calculateSimilarity a b = calculateSimilarity b a ∧
    calculateSimilarity a a = 1 ∧
    calculateSimilarity a b =
      (if max a.data.length b.data.length = 0 then 1
       else 1 - (levFull (shorterOf a b) ((longerOf a b).take (shorterOf a b).length) : ℚ)
                  / ((max a.data.length b.data.length : ℕ) : ℚ)) :=
  ⟨calculateSimilarity_nonneg_le_one a b, calculateSimilarity_symm a b,
   calculateSimilarity_self a, by rw [calculateSimilarity_closed, ← longerOf_length]⟩

theorem scanRules_eq_find? (cmp : String → Option (String → Bool)) (text : String) :
    ∀ l : List ContentRule, scanRules cmp text l = l.find? (ruleMatches cmp text) := by
  intro l
  induction l with
  | nil => rfl
  | cons r rest ih =>
    rw [List.find?_cons]
    by_cases h : ruleMatches cmp text r
    · simp [scanRules, h]
    · simp only [h]
      simp [scanRules, h, ih]

theorem sortRules_sorted (rules : List ContentRule) :
    (sortRules rules).Pairwise (fun a b => b.severity ≤ a.severity) := by
  haveI : IsTotal ContentRule (fun a b => b.severity ≤ a.severity) :=
    ⟨fun a b => le_total b.severity a.severity⟩
  haveI : IsTrans ContentRule (fun a b => b.severity ≤ a.severity) :=
    ⟨fun _ _ _ h1 h2 => le_trans h2 h1⟩
  exact List.sorted_insertionSort _ rules

theorem sortRules_perm (rules : List ContentRule) : (sortRules rules).Perm rules :=
  List.perm_insertionSort _ rules

/-- In a severity-descending list, the first match of `find?` has maximal
severity among all matching entries. -/
theorem find?_sorted_max {p : ContentRule → Bool} :
    ∀ l : List ContentRule, l.Pairwise (fun a b => b.severity ≤ a.severity) →
      ∀ r, l.find? p = some r → ∀ q ∈ l, p q = true → q.severity ≤ r.severity := by
  intro l
  induction l with
  | nil => intro _ r h; cases h
  | cons a l ih =>
    intro hpw r hfind q hq hpq
    obtain ⟨ha, hl⟩ := List.pairwise_cons.mp hpw
    rw [List.find?_cons] at hfind
    by_cases hpa : p a = true
    · rw [hpa] at hfind
      cases hfind
      rcases List.mem_cons.mp hq with hqa | hql
      · subst hqa; exact le_rfl
      · exact ha q hql
    · rw [Bool.eq_false_iff.mpr hpa] at hfind
      rcases List.mem_cons.mp hq with hqa | hql
      · subst hqa; exact absurd hpq hpa
      · exact ih hl r hfind q hql hpq

/-- The JS-level `containsBannedContent` on a string text agrees with the
string-level body. -/
theorem containsBannedContent_str (text : String) (rules : List ContentRule)
    (cmp : String → Option (String → Bool)) :
    containsBannedContent (.str text) rules cmp = containsBannedContentStr text rules cmp := by
  by_cases ht : text = ""
  · subst ht
    by_cases hr : rules.isEmpty <;>
      simp [containsBannedContent, containsBannedContentImpl, containsBannedContentStr,
        jsTruthy, hr]
  · by_cases hr : rules.isEmpty <;>
      simp [containsBannedContent, containsBannedContentImpl, containsBannedContentStr,
        jsTruthy, ht, hr]

/-- A returned rule belongs to the rule list, matches, and has maximal
severity among matching rules. -/
theorem containsBanned_some_spec (cmp : String → Option (String → Bool)) (text : String)
    (rules : List ContentRule) (r : ContentRule)
    (hsome : containsBannedContent (.str text) rules cmp = some r) :
    r ∈ rules ∧ ruleMatches cmp text r = true ∧
      ∀ q ∈ rules, ruleMatches cmp text q = true → q.severity ≤ r.severity := by
  rw [containsBannedContent_str] at hsome
  unfold containsBannedContentStr at hsome
  by_cases hg : (text = "" || rules.isEmpty) = true
  · rw [if_pos hg] at hsome; cases hsome
  · rw [if_neg hg, scanRules_eq_find?] at hsome
    refine ⟨((sortRules_perm rules).mem_iff).mp (List.mem_of_find?_eq_some hsome),
      List.find?_some hsome, ?_⟩
    intro q hq hpq
    exact find?_sorted_max (sortRules rules) (sortRules_sorted rules) r hsome q
      (((sortRules_perm rules).mem_iff).mpr hq) hpq

/-- When no rule matches, the matcher returns `null`. -/
theorem containsBanned_none_of_no_match (cmp : String → Option (String → Bool))
    (text : String) (rules : List ContentRule)
    (hno : ∀ q ∈ rules, ruleMatches cmp text q = false) :
    containsBannedContent (.str text) rules cmp = none := by
  rw [containsBannedContent_str]
  unfold containsBannedContentStr
  by_cases hg : (text = "" || rules.isEmpty) = true
  · rw [if_pos hg]
  · rw [if_neg hg, scanRules_eq_find?, List.find?_eq_none]
    intro x hx
    simp [hno x (((sortRules_perm rules).mem_iff).mp hx)]

/-- When the text is nonempty and some rule matches, the scan returns a
matching rule. -/
theorem containsBanned_finds_match (cmp : String → Option (String → Bool))
    (text : String) (rules : List ContentRule) (good : ContentRule)
    (htext : text ≠ "") (hmem : good ∈ rules) (hmatch : ruleMatches cmp text good = true) :
    ∃ res, containsBannedContent (.str text) rules cmp = some res ∧
      ruleMatches cmp text res = true := by
  rw [containsBannedContent_str]
  unfold containsBannedContentStr
  have hne : rules.isEmpty = false := by
    cases rules with
    | nil => cases hmem
    | cons a l => rfl
  rw [if_neg (by simp [htext, hne]), scanRules_eq_find?]
  have hex : ∃ x ∈ sortRules rules, ruleMatches cmp text x = true :=
    ⟨good, ((sortRules_perm rules).mem_iff).mpr hmem, hmatch⟩
  obtain ⟨res, hres⟩ := Option.isSome_iff_exists.mp (List.find?_isSome.mpr hex)
  exact ⟨res, hres, List.find?_some hres⟩

/-- **C5**: for every text, rule list and regex engine, a rule returned by
`containsBannedContent` matches and has maximal severity among the matching
rules (rules are scanned severity-descending, first match wins), no match is
returned when no rule matches, and on the spec's example
(`{pattern "a", severity 1}`, `{pattern "ab", severity 5, kind PHRASE}`,
text `"xaby"`) the severity-5 rule is returned. -/
theorem C5_matcher_max_severity :
    (∀ (cmp : String → Option (String → Bool)) (text : String)
        (rules : List ContentRule) (r : ContentRule),
        containsBannedContent (.str text) rules cmp = some r →
          r ∈ rules ∧ ruleMatches cmp text r = true ∧
          ∀ q ∈ rules, ruleMatches cmp text q = true → q.severity ≤ r.severity) ∧
    (∀ (cmp : String → Option (String → Bool)) (text : String)
        (rules : List ContentRule),
        (∀ q ∈ rules, ruleMatches cmp text q = false) →
          containsBannedContent (.str text) rules cmp = none) ∧
    containsBannedContent (.str "xaby")
        [⟨"a", "PHRASE", 1⟩, ⟨"ab", "PHRASE", 5⟩] (fun _ => none)
      = some ⟨"ab", "PHRASE", 5⟩ :=
  ⟨containsBanned_some_spec, containsBanned_none_of_no_match, by decide⟩

/-- Witness for C5 at a concrete input: with no matching rule the matcher
returns `null`. -/
theorem C5_matcher_max_severity_witness :
    containsBannedContent (.str "zzz") [⟨"q", "PHRASE", 3⟩] (fun _ => none) = none :=
  C5_matcher_max_severity.2.1 (fun _ => none) "zzz" [⟨"q", "PHRASE", 3⟩]
    (by intro q hq; fin_cases hq; decide)

/-- **C8**: an invalid REGEX rule (whose pattern fails to compile) never
aborts the scan: the evaluator still returns normally (`.ok`), the invalid
rule itself is never returned, and any valid rule that matches still leads to
a matching rule being returned. -/
theorem C8_invalid_regex_skipped (cmp : String → Option (String → Bool)) (text : String)
    (rules : List ContentRule) (bad : ContentRule)
    (htext : text ≠ "") (hbad : bad ∈ rules) (hkind : bad.content_type = "REGEX")
    (hcomp : cmp bad.content = none) :
    (∃ v, containsBannedContentImpl (.str text) rules cmp = .ok v) ∧
    containsBannedContent (.str text) rules cmp ≠ some bad ∧
    (∀ good ∈ rules, ruleMatches cmp text good = true →
      ∃ res, containsBannedContent (.str text) rules cmp = some res ∧
        ruleMatches cmp text res = true) := by
  have hbadmatch : ruleMatches cmp text bad = false := by
    unfold ruleMatches
    rw [hkind, hcomp]
    rfl
  refine ⟨?_, ?_, ?_⟩
  · unfold containsBannedContentImpl
    by_cases hg : (!jsTruthy (JSVal.str text) || rules.isEmpty) = true
    · rw [if_pos hg]; exact ⟨none, rfl⟩
    · rw [if_neg hg]; exact ⟨_, rfl⟩
  · intro heq
    have := (containsBanned_some_spec cmp text rules bad heq).2.1
    rw [hbadmatch] at this
    cases this
  · intro good hmem hmatch
    exact containsBanned_finds_match cmp text rules good htext hmem hmatch

/-- Witness for C8: an uncompilable pattern `"["` at severity 5 is skipped
and the valid severity-1 PHRASE rule is still found. -/
theorem C8_invalid_regex_skipped_witness :
    (∃ v, containsBannedContentImpl (.str "xaby")
        [⟨"[", "REGEX", 5⟩, ⟨"ab", "PHRASE", 1⟩]
        (fun p => if p = "[" then none else some (fun _ => false)) = .ok v) ∧
    containsBannedContent (.str "xaby")
        [⟨"[", "REGEX", 5⟩, ⟨"ab", "PHRASE", 1⟩]
        (fun p => if p = "[" then none else some (fun _ => false)) ≠ some ⟨"[", "REGEX", 5⟩ ∧
    (∀ good ∈ ([⟨"[", "REGEX", 5⟩, ⟨"ab", "PHRASE", 1⟩] : List ContentRule),
      ruleMatches (fun p => if p = "[" then none else some (fun _ => false)) "xaby" good
        = true →
      ∃ res, containsBannedContent (.str "xaby")
          [⟨"[", "REGEX", 5⟩, ⟨"ab", "PHRASE", 1⟩]
          (fun p => if p = "[" then none else some (fun _ => false)) = some res ∧
        ruleMatches (fun p => if p = "[" then none else some (fun _ => false)) "xaby" res
          = true) :=
  C8_invalid_regex_skipped (fun p => if p = "[" then none else some (fun _ => false))
    "xaby" [⟨"[", "REGEX", 5⟩, ⟨"ab", "PHRASE", 1⟩] ⟨"[", "REGEX", 5⟩
    (by decide) (by simp) rfl rfl

/-- **C2** counterexample: with `maxWarnings = 3`, a user with two prior
SPAM/MUTE infractions (a *different* class) who triggers their first
BANNED_CONTENT violation is banned by the code — `getUserInfractions` counts
all the user's infractions, not just the relevant class, so the claim's
"otherwise only the warn applies" fails here (the relevant-class count is 1,
below the threshold 3). -/
theorem C2_counterexample :
    (handleBannedContent true [⟨1, "SPAM", "MUTE"⟩, ⟨1, "SPAM", "MUTE"⟩] 1
        (some ⟨some 3⟩) 1000).2
      = [.deleteMsg, .banChatMember 1 (1000 + 60 * 60 * 24), .sendMessage] ∧
    relevantClassCount
        ([⟨1, "SPAM", "MUTE"⟩, ⟨1, "SPAM", "MUTE"⟩] ++ [⟨1, "BANNED_CONTENT", "WARN"⟩])
        1 "BANNED_CONTENT" = 1 ∧
    ¬ (maxWarningsOf (some ⟨some 3⟩) ≤ (1 : ℤ)) := by
  decide

/-- **C2** (amended): `handleBannedContent` first records the
BANNED_CONTENT/WARN infraction, then counts *all* of the user's infractions
(any class, including the new row); the user is banned — with a hard-coded
24-hour `until_date`, not `settings.ban_duration` — exactly when that count
reaches `settings.max_warnings` (default 3), and otherwise only warned.  In
particular a user with 2 prior BANNED_CONTENT/WARN infractions triggering a
3rd violation under `maxWarnings = 3` is banned, not warned. -/
theorem C2_escalation_amended (db : List InfractionRow) (userId : ℤ)
    (settings : Option GroupSettings) (nowSecs : ℤ) :
    ((handleBannedContent true db userId settings nowSecs).1
        = db ++ [(⟨userId, "BANNED_CONTENT", "WARN"⟩ : InfractionRow)] ∧
      ((maxWarningsOf settings
          ≤ ((((db ++ [(⟨userId, "BANNED_CONTENT", "WARN"⟩ : InfractionRow)]).filter
                (fun r => r.userId = userId)).length : ℕ) : ℤ)) →
        (handleBannedContent true db userId settings nowSecs).2
          = [.deleteMsg, .banChatMember userId (nowSecs + 60 * 60 * 24), .sendMessage]) ∧
      (¬ (maxWarningsOf settings
          ≤ ((((db ++ [(⟨userId, "BANNED_CONTENT", "WARN"⟩ : InfractionRow)]).filter
                (fun r => r.userId = userId)).length : ℕ) : ℤ)) →
        (handleBannedContent true db userId settings nowSecs).2
          = [.deleteMsg, .sendMessage])) ∧
    (handleBannedContent true
        [⟨7, "BANNED_CONTENT", "WARN"⟩, ⟨7, "BANNED_CONTENT", "WARN"⟩] 7
        (some ⟨some 3⟩) 0).2
      = [.deleteMsg, .banChatMember 7 (0 + 60 * 60 * 24), .sendMessage] := by
  refine ⟨?_, by decide⟩
  by_cases h : maxWarningsOf settings
      ≤ ((((db ++ [(⟨userId, "BANNED_CONTENT", "WARN"⟩ : InfractionRow)]).filter
            (fun r => r.userId = userId)).length : ℕ) : ℤ)
  · refine ⟨?_, fun _ => ?_, fun hc => absurd h hc⟩ <;>
      (unfold handleBannedContent;
       rw [if_neg (show ¬ ((!true) = true) by decide), if_pos h])
  · refine ⟨?_, fun hc => absurd hc h, fun _ => ?_⟩ <;>
      (unfold handleBannedContent;
       rw [if_neg (show ¬ ((!true) = true) by decide), if_neg h])

/-- Witness for the amended C2: two prior BANNED_CONTENT warnings, third
violation, `maxWarnings = 3` — banned. -/
theorem C2_escalation_amended_witness :
    (handleBannedContent true
        [⟨7, "BANNED_CONTENT", "WARN"⟩, ⟨7, "BANNED_CONTENT", "WARN"⟩] 7
        (some ⟨some 3⟩) 0).2
      = [.deleteMsg, .banChatMember 7 (0 + 60 * 60 * 24), .sendMessage] :=
  (C2_escalation_amended [⟨7, "BANNED_CONTENT", "WARN"⟩, ⟨7, "BANNED_CONTENT", "WARN"⟩]
      7 (some ⟨some 3⟩) 0).1.2.1 (by decide)

/-- **C9** counterexample: when `bot.deleteMessage` throws, the handler's
single `try/catch` aborts everything after the delete — in particular the
infraction is NOT recorded (the database is unchanged) and no ban/warn
notification is issued, contradicting "the infraction is still recorded and
the escalation decision … still carried out". -/
theorem C9_counterexample :
    (handleBannedContent false [] 1 (some ⟨some 3⟩) 0).1 = [] ∧
    (handleBannedContent false [] 1 (some ⟨some 3⟩) 0).2 = [.logError] ∧
    (handleSpam false [] 1 (some ⟨some 3⟩) 0).1 = [] := by
  decide

/-- **C9** (amended): for both SPAM and BANNED_CONTENT handlers, a
`deleteMessage` failure is caught and logged — the error never propagates to
the caller — but the rest of the handler is skipped: no infraction row is
written and no restriction or notification is issued. -/
theorem C9_delete_failure_amended (db : List InfractionRow) (userId : ℤ)
    (settings : Option GroupSettings) (nowSecs : ℤ) :
    handleBannedContent false db userId settings nowSecs = (db, [.logError]) ∧
    handleSpam false db userId settings nowSecs = (db, [.logError]) :=
  ⟨rfl, rfl⟩

/-- **C3** counterexample: an expired, unprocessed MUTE superseded only by a
*newer already-expired and processed* MUTE is excluded by the query, although
the claim's condition ("a strictly newer infraction of the same kind … still
active") does not hold — the SQL `NOT EXISTS` tests mere existence of a newer
same-kind row, not its activity. -/
theorem C3_counterexample :
    getExpiredRestrictions
        ⟨[⟨1, 1, "MUTE", 0, 10, false⟩, ⟨2, 1, "MUTE", 5, 5, true⟩], [(1, 100)]⟩ 20 = [] ∧
    specSweepCandidate
        ⟨[⟨1, 1, "MUTE", 0, 10, false⟩, ⟨2, 1, "MUTE", 5, 5, true⟩], [(1, 100)]⟩ 20
        ⟨1, 1, "MUTE", 0, 10, false⟩ = true ∧
    ((1 : ℤ), (100 : ℤ))
      ∈ (⟨[⟨1, 1, "MUTE", 0, 10, false⟩, ⟨2, 1, "MUTE", 5, 5, true⟩],
          [(1, 100)]⟩ : SweepDB).messageLogs := by
  decide

/-- **C3** (amended): `(i, chat)` is returned by `getExpiredRestrictions`
iff `i` is a BAN/MUTE infraction row with `created_at + duration ≤ now`, not
yet processed, `chat` is one of the user's message-log chats, and *no
strictly newer infraction of the same user and kind exists at all* (active,
expired or processed alike). -/
theorem C3_expired_selection_amended (db : SweepDB) (now : ℤ)
    (i : SweepInfraction) (chat : ℤ) :
    (i, chat) ∈ getExpiredRestrictions db now
      ↔ i ∈ db.infractions ∧ (i.itype = "BAN" ∨ i.itype = "MUTE") ∧
        i.createdAt + i.durationMin ≤ now ∧ i.processed = false ∧
        (¬ ∃ j ∈ db.infractions,
            j.userId = i.userId ∧ j.itype = i.itype ∧ i.createdAt < j.createdAt) ∧
        (i.userId, chat) ∈ db.messageLogs := by
  unfold getExpiredRestrictions expiredWhere
  simp only [List.mem_flatMap, List.mem_filter, List.mem_map, Prod.mk.injEq,
    Bool.and_eq_true, Bool.or_eq_true, decide_eq_true_eq, Bool.not_eq_true',
    List.any_eq_false, Bool.and_eq_false_iff, decide_eq_false_iff_not]
  constructor
  · rintro ⟨a, ⟨hamem, ⟨⟨hk, hexp⟩, hpr⟩, hnew⟩, ⟨l1, l2⟩, ⟨hlmem, hlu⟩, rfl, hlc⟩
    subst hlu
    subst hlc
    refine ⟨hamem, hk, hexp, hpr, ?_, hlmem⟩
    rintro ⟨j, hjmem, hju, hjt, hjc⟩
    exact hnew j hjmem ⟨⟨hju, hjt⟩, hjc⟩
  · rintro ⟨hmem, hk, hexp, hpr, hnew, hlog⟩
    refine ⟨i, ⟨hmem, ⟨⟨hk, hexp⟩, hpr⟩, ?_⟩, (i.userId, chat), ⟨hlog, rfl⟩, rfl, rfl⟩
    intro x hx hcon
    obtain ⟨⟨hxu, hxt⟩, hxc⟩ := hcon
    exact hnew ⟨x, hx, hxu, hxt, hxc⟩

/-- **C4**: nothing in the sweep ever sets the `processed` flag, because
`checkTemporaryBans` calls `removeRestriction(user_id, type)` without the
infraction id the `processed`-column `removeRestriction` requires (the
undefined third argument binds as SQL `NULL`, matching no row).
Consequently, at a database with a single expired MUTE infraction the first
sweep issues the unmute and leaves the database unchanged, and a second
sweep re-issues the same platform lift — the sweep is not idempotent. -/
theorem C4_sweep_reissues_lift :
    (checkTemporaryBans ⟨[⟨1, 1, "MUTE", 0, 10, false⟩], [(1, 100)]⟩ 20).1
        = ⟨[⟨1, 1, "MUTE", 0, 10, false⟩], [(1, 100)]⟩ ∧
    PlatformCall.restrictLift 100 1
      ∈ (checkTemporaryBans ⟨[⟨1, 1, "MUTE", 0, 10, false⟩], [(1, 100)]⟩ 20).2 ∧
    PlatformCall.restrictLift 100 1
      ∈ (checkTemporaryBans
          (checkTemporaryBans ⟨[⟨1, 1, "MUTE", 0, 10, false⟩], [(1, 100)]⟩ 20).1 21).2 := by
  decide

end GolabBot
